import Mathlib

set_option linter.unusedVariables false

/-!
Verification of the asa_servermanager_api supervisor core.

The Go sources are shallowly embedded: each Go package becomes a namespace,
Go maps become association lists, the global mutable maps of the
processmanager package become fields of an explicit manager state, and the
per-instance goroutines (monitor loops, backup-schedule loops) are
represented by the multiset of spawned-and-still-live loops.  File-system
effects (marker files, archive directories) are carried in the state as
lists of file names or name/content pairs; a file write that the claim
under scrutiny does not make fail is modelled as succeeding.  Fallible
deletions are parameterised by an oracle telling which removals succeed.
All definitions are executable so that every concrete scenario below is
checked by evaluation.
-/

/-- Association-list lookup, first binding wins — the embedding of reading a
Go map (Go maps hold at most one binding per key). -/
def lookupA {α : Type} : List (String × α) → String → Option α
  | [], _ => none
  | p :: rest, k => if p.1 = k then some p.2 else lookupA rest k

/-- Reading a Go map of booleans: a missing key yields the zero value false. -/
def lookupD (l : List (String × Bool)) (k : String) : Bool :=
  (lookupA l k).getD false

/-- Association-list update in place (append when the key is new) — the
embedding of writing one binding of a Go map. -/
def setA {α : Type} : List (String × α) → String → α → List (String × α)
  | [], k, v => [(k, v)]
  | p :: rest, k, v => if p.1 = k then (k, v) :: rest else p :: setA rest k v

/-- Association-list removal of a key — the embedding of a Go map delete. -/
def removeA {α : Type} : List (String × α) → String → List (String × α)
  | [], _ => []
  | p :: rest, k => if p.1 = k then removeA rest k else p :: removeA rest k

theorem lookupA_setA {α : Type} (l : List (String × α)) (k : String) (v : α)
    (j : String) :
    lookupA (setA l k v) j = if j = k then some v else lookupA l j := by
  induction l with
  | nil => by_cases h : j = k <;> simp [setA, lookupA, h, Ne.symm]
  | cons p rest ih =>
      by_cases hpk : p.1 = k
      · by_cases hjk : j = k <;>
          simp [setA, lookupA, hpk, hjk, Ne.symm]
      · by_cases hpj : p.1 = j
        · have hjk : ¬ j = k := by
            intro h; exact hpk (by rw [hpj, h])
          simp [setA, lookupA, hpk, hpj, hjk]
        · simp [setA, lookupA, hpk, hpj, ih]

/-- Updating a key to the value it already holds leaves every lookup
unchanged. -/
theorem lookupA_setA_self {α : Type} (l : List (String × α)) (k : String)
    (v : α) (hv : lookupA l k = some v) (j : String) :
    lookupA (setA l k v) j = lookupA l j := by
  rw [lookupA_setA]
  by_cases hjk : j = k
  · subst hjk; simp [hv]
  · simp [hjk]

namespace Rcon

/-- The stubbed remote-console call of the rcon package: doexit is always
acknowledged with the fixed string, saveworld with its own fixed string,
anything else with the empty string. -/
def dummyRcon (m c : String) : String :=
  if c = "doexit" then "Exiting... \n "
  else if c = "saveworld" then "World Saved \n "
  else ""

theorem dummyRcon_doexit (m : String) : dummyRcon m "doexit" = "Exiting... \n " := rfl

end Rcon

namespace PM

/-- One process record of the configuration file (processmanager.ProcessConfig). -/
structure ProcessConfig where
  map : String
  executable : String
  args : List String
  restartInterval : Int
deriving Repr, DecidableEq

/-- The manager state: the immutable config registry and the processes map of
the ProcessManager struct, the two package-global flag maps, the multiset of
spawned monitor-loop goroutines that are still live, the on-disk files, and
whether the manager mutex is currently held. -/
structure PMState where
  configs : List (String × ProcessConfig)
  processes : List String
  myMap : List (String × Bool)
  myMapSarted : List (String × Bool)
  monitorLoops : List String
  files : List String
  muLocked : Bool
deriving Repr, DecidableEq

/-- pm.mu.Lock(). -/
def lockMu (s : PMState) : PMState := { s with muLocked := true }

/-- pm.mu.Unlock(); with defer it fires at every return point. -/
def unlockMu (s : PMState) : PMState := { s with muLocked := false }

/-- GeneratePIDFileName of the operative processmanager variant. -/
def GeneratePIDFileName (mapName : String) : String :=
  "./data/" ++ mapName ++ ".pid"

/-- The mergedID helper used by DisableProcess to build file names. -/
def mergedID (m e : String) : String := m ++ e

/-- EnableProcess: under the mutex, check the config registry; if the
started flag is set return the already-running message; otherwise set the
enablement flag, spawn a monitor-loop goroutine (recorded in monitorLoops;
the started flag is NOT set here — the goroutine sets it later), and return
the success message.  Unknown names produce the not-found message with no
state change.  The deferred unlock runs on every path. -/
def EnableProcess (pm : PMState) (mapName : String) : String × PMState :=
  let s := lockMu pm
  match lookupA s.configs mapName with
  | some _ =>
      if lookupD s.myMapSarted mapName then
        ("Map already running", unlockMu s)
      else
        let s2 := { s with myMap := setA s.myMap mapName true,
                           monitorLoops := mapName :: s.monitorLoops }
        ("Successfully started the map " ++ mapName, unlockMu s2)
  | none => ("Eror: Map " ++ mapName ++ " not found", unlockMu s)

/-- DisableProcess: under the mutex, unconditionally clear both flags, then
call the stubbed rcon with doexit; on the acknowledgement string delete the
processes entry and remove the files mapName_saved.pid and mapName.save and
return the success message, otherwise return the error message.  The
deferred unlock runs on every path. -/
def DisableProcess (pm : PMState) (mapName : String) : String × PMState :=
  let s := lockMu pm
  let s2 := { s with myMap := setA s.myMap mapName false,
                     myMapSarted := setA s.myMapSarted mapName false }
  if Rcon.dummyRcon mapName "doexit" = "Exiting... \n " then
    let s3 := { s2 with processes := s2.processes.erase mapName,
                        files := (s2.files.erase (mergedID mapName "_saved.pid")).erase
                          (mergedID mapName ".save") }
    ("Successfully stopped the map " ++ mapName, unlockMu s3)
  else
    ("Error: Shutting down the map " ++ mapName, unlockMu s2)

/-- A state in which the island instance is enabled, its monitor loop live,
its process entry recorded and its PID marker on disk. -/
def pidMarkerDemo : PMState :=
  { configs := [("island", ⟨"island", "island.exe", [], 5⟩)]
    processes := ["island"]
    myMap := [("island", true)]
    myMapSarted := [("island", true)]
    monitorLoops := ["island"]
    files := [GeneratePIDFileName "island"]
    muLocked := false }

/-- Claim C10: DisableProcess always returns the success string for the
requested map — the error branch is unreachable because the stubbed rcon
call with command doexit unconditionally returns the acknowledgement
string. -/
theorem DisableProcess_always_reports_stopped (pm : PMState) (mapName : String) :
    Rcon.dummyRcon mapName "doexit" = "Exiting... \n " ∧
    (DisableProcess pm mapName).1 = "Successfully stopped the map " ++ mapName ∧
    (DisableProcess pm mapName).1 ≠ "Error: Shutting down the map " ++ mapName := by
  refine ⟨rfl, rfl, ?_⟩
  have hres : (DisableProcess pm mapName).1 = "Successfully stopped the map " ++ mapName := rfl
  rw [hres]
  intro h
  have hd := congrArg String.data h
  rw [String.data_append, String.data_append] at hd
  have h2 := List.append_cancel_right hd
  exact (by decide :
    "Successfully stopped the map ".data ≠ "Error: Shutting down the map ".data) h2

/-- Claim C1 counterexample: the shutdown is acknowledged (the stub always
acknowledges) and DisableProcess reports the success message, yet the
instance's PID marker ./data/island.pid is still on disk afterwards — the
files it removes are island_saved.pid and island.save, not the PID marker. -/
theorem DisableProcess_keeps_pid_marker_cex :
    (DisableProcess pidMarkerDemo "island").1 = "Successfully stopped the map island" ∧
    (DisableProcess pidMarkerDemo "island").2.files = [GeneratePIDFileName "island"] ∧
    (DisableProcess pidMarkerDemo "island").2.myMap = [("island", false)] := by
  exact ⟨rfl, rfl, rfl⟩

/-- Claim C1 amended: DisableProcess always takes the acknowledged branch
(the stub acknowledges doexit unconditionally); it clears both the
enablement and the started flag regardless of the outcome, removes the
RunningProcessEntry, removes the files mapName_saved.pid and mapName.save,
and reports success — while the PID marker ./data/mapName.pid written by the
monitor loop is never removed. -/
theorem DisableProcess_clears_flags_and_wrong_files (pm : PMState) (mapName : String) :
    (DisableProcess pm mapName).1 = "Successfully stopped the map " ++ mapName ∧
    lookupD (DisableProcess pm mapName).2.myMap mapName = false ∧
    lookupD (DisableProcess pm mapName).2.myMapSarted mapName = false ∧
    (DisableProcess pm mapName).2.processes = pm.processes.erase mapName ∧
    (DisableProcess pm mapName).2.files =
      (pm.files.erase (mergedID mapName "_saved.pid")).erase (mergedID mapName ".save") ∧
    (GeneratePIDFileName mapName ∈ pm.files →
      GeneratePIDFileName mapName ∈ (DisableProcess pm mapName).2.files) := by
  refine ⟨rfl, ?_, ?_, rfl, rfl, ?_⟩
  · simp [DisableProcess, Rcon.dummyRcon, lockMu, unlockMu, lookupD, lookupA_setA]
  · simp [DisableProcess, Rcon.dummyRcon, lockMu, unlockMu, lookupD, lookupA_setA]
  · intro hmem
    have e1 : "./data/".length = 7 := by decide
    have e2 : ".pid".length = 4 := by decide
    have e3 : "_saved.pid".length = 10 := by decide
    have e4 : ".save".length = 5 := by decide
    have h1 : GeneratePIDFileName mapName ≠ mergedID mapName "_saved.pid" := by
      intro h
      have hl := congrArg String.length h
      rw [show GeneratePIDFileName mapName = "./data/" ++ (mapName ++ ".pid") from rfl,
        show mergedID mapName "_saved.pid" = mapName ++ "_saved.pid" from rfl,
        String.length_append, String.length_append, String.length_append] at hl
      rw [e1, e2, e3] at hl
      omega
    have h2 : GeneratePIDFileName mapName ≠ mergedID mapName ".save" := by
      intro h
      have hl := congrArg String.length h
      rw [show GeneratePIDFileName mapName = "./data/" ++ (mapName ++ ".pid") from rfl,
        show mergedID mapName ".save" = mapName ++ ".save" from rfl,
        String.length_append, String.length_append, String.length_append] at hl
      rw [e1, e2, e4] at hl
      omega
    have hstep : (DisableProcess pm mapName).2.files =
        (pm.files.erase (mergedID mapName "_saved.pid")).erase (mergedID mapName ".save") := rfl
    rw [hstep]
    exact (List.mem_erase_of_ne h2).mpr ((List.mem_erase_of_ne h1).mpr hmem)

/-- Witness for the amended C1 theorem at a concrete state carrying the PID
marker: the marker survives the successful Disable. -/
theorem DisableProcess_clears_flags_and_wrong_files_witness :
    GeneratePIDFileName "island" ∈ (DisableProcess pidMarkerDemo "island").2.files :=
  (DisableProcess_clears_flags_and_wrong_files pidMarkerDemo "island").2.2.2.2.2
    (by simp [pidMarkerDemo])

/-- Insert a name into a list unless already present — the embedding of a Go
map assignment under a key (at most one entry per key) and of creating or
overwriting a file of that name. -/
def addOnce (l : List String) (k : String) : List String :=
  if k ∈ l then l else k :: l

/-- The PID-marker path the operative monitor loop actually writes:
filepath.Join of the data directory with the already-prefixed name returned
by GeneratePIDFileName, cleaned. -/
def monitorPidFile (mapName : String) : String :=
  "data/data/" ++ mapName ++ ".pid"

/-- The outcome of the fallible calls one iteration of MonitorProcess makes:
the ReadPID result, the liveness check, the two pipe creations, cmd.Start,
the fresh PID, and SavePID. -/
structure MonitorEnv where
  pidRead : Option Int
  isRunning : Int → Bool
  stdoutPipeOk : Bool
  stderrPipeOk : Bool
  startOk : Bool
  newPid : Int
  savePIDOk : Bool

/-- The externally observable actions of one monitor-loop iteration, in
execution order. -/
inductive MAction where
  | spawned
  | killedSpawned
  | savedPIDMarker
  | registeredEntry
  | sleptRestartInterval
deriving Repr, DecidableEq

/-- Whether the iteration falls through to the next one or leaves the loop. -/
inductive IterExit where
  | continued
  | broke
deriving Repr, DecidableEq

/-- Result of one monitor-loop iteration: the state afterwards, the ordered
action trace, and how the iteration ended. -/
structure IterResult where
  state : PMState
  actions : List MAction
  exit : IterExit

/-- The start attempt of a monitor-loop iteration (the branch entered when
the PID marker is absent, unreadable, or names a dead process): if the
enablement flag is clear the loop breaks; otherwise it sets both flags,
creates the pipes, starts the process, saves the PID, and registers the
entry, each failure sleeping the restart interval and retrying — and a
SavePID failure killing the just-spawned process first. -/
def monitorStartAttempt (pm : PMState) (mapName : String) (env : MonitorEnv) : IterResult :=
  if lookupD pm.myMap mapName then
    let s := { pm with myMap := setA pm.myMap mapName true,
                       myMapSarted := setA pm.myMapSarted mapName true }
    if env.stdoutPipeOk = false then
      { state := s, actions := [.sleptRestartInterval], exit := .continued }
    else if env.stderrPipeOk = false then
      { state := s, actions := [.sleptRestartInterval], exit := .continued }
    else if env.startOk = false then
      { state := s, actions := [.sleptRestartInterval], exit := .continued }
    else if env.savePIDOk = false then
      { state := s, actions := [.spawned, .killedSpawned, .sleptRestartInterval],
        exit := .continued }
    else
      { state := { s with files := addOnce s.files (monitorPidFile mapName),
                          processes := addOnce s.processes mapName }
        actions := [.spawned, .savedPIDMarker, .registeredEntry, .sleptRestartInterval]
        exit := .continued }
  else
    { state := pm, actions := [], exit := .broke }

/-- One iteration of the operative MonitorProcess loop: if the PID marker
reads back a live process the iteration only sleeps; otherwise it runs the
start attempt.  The stream-scanner and exit-waiter goroutines are outside
the iteration and not modelled. -/
def MonitorIteration (pm : PMState) (mapName : String) (env : MonitorEnv) : IterResult :=
  match env.pidRead with
  | some pid =>
      if env.isRunning pid then
        { state := pm, actions := [.sleptRestartInterval], exit := .continued }
      else monitorStartAttempt pm mapName env
  | none => monitorStartAttempt pm mapName env

/-- Claim C8: in an iteration where the process spawns successfully but the
PID-marker write fails, the just-spawned process is killed before the loop
sleeps the restart interval — the action trace is exactly spawn, kill,
sleep — and no process entry and no marker file is left behind. -/
theorem MonitorIteration_kills_orphan_on_pid_write_failure (pm : PMState)
    (mapName : String) (env : MonitorEnv)
    (henabled : lookupD pm.myMap mapName = true)
    (hstale : ∀ pid, env.pidRead = some pid → env.isRunning pid = false)
    (hso : env.stdoutPipeOk = true) (hse : env.stderrPipeOk = true)
    (hstart : env.startOk = true) (hsave : env.savePIDOk = false) :
    (MonitorIteration pm mapName env).actions =
      [.spawned, .killedSpawned, .sleptRestartInterval] ∧
    (MonitorIteration pm mapName env).state.processes = pm.processes ∧
    (MonitorIteration pm mapName env).state.files = pm.files ∧
    (MonitorIteration pm mapName env).exit = .continued := by
  have hattempt : monitorStartAttempt pm mapName env =
      { state := { pm with myMap := setA pm.myMap mapName true,
                           myMapSarted := setA pm.myMapSarted mapName true }
        actions := [.spawned, .killedSpawned, .sleptRestartInterval]
        exit := .continued } := by
    simp [monitorStartAttempt, henabled, hso, hse, hstart, hsave]
  cases hp : env.pidRead with
  | none => simp [MonitorIteration, hp, hattempt]
  | some pid => simp [MonitorIteration, hp, hstale pid hp, hattempt]

/-- A concrete environment for the failed-marker-write scenario: no readable
PID marker, pipes and spawn succeed, SavePID fails. -/
def saveFailEnv : MonitorEnv :=
  { pidRead := none, isRunning := fun _ => false, stdoutPipeOk := true,
    stderrPipeOk := true, startOk := true, newPid := 4242, savePIDOk := false }

/-- Witness for C8: the enabled island instance, spawn succeeding and the
marker write failing, yields exactly the spawn-kill-sleep trace. -/
theorem MonitorIteration_kills_orphan_witness :
    (MonitorIteration pidMarkerDemo "island" saveFailEnv).actions =
      [.spawned, .killedSpawned, .sleptRestartInterval] ∧
    (MonitorIteration pidMarkerDemo "island" saveFailEnv).state.processes =
      pidMarkerDemo.processes ∧
    (MonitorIteration pidMarkerDemo "island" saveFailEnv).state.files =
      pidMarkerDemo.files ∧
    (MonitorIteration pidMarkerDemo "island" saveFailEnv).exit = .continued :=
  MonitorIteration_kills_orphan_on_pid_write_failure pidMarkerDemo "island" saveFailEnv
    (by decide) (fun pid h => nomatch h) rfl rfl rfl rfl

/-- A fresh manager knowing the island instance: nothing running, no flags,
no loops, no files. -/
def freshPM : PMState :=
  { configs := [("island", ⟨"island", "island.exe", [], 5⟩)]
    processes := []
    myMap := []
    myMapSarted := []
    monitorLoops := []
    files := []
    muLocked := false }

/-- Claim C2 evaluated at the failing input: two EnableProcess calls in
immediate succession (no step of the spawned monitor goroutine between them
— the goroutine, not EnableProcess, is what sets myMapSarted) both return
the started message and leave two live monitor loops, where the claim and
the spec demand one loop and an already-running reply. -/
theorem EnableProcess_double_call_spawns_two_loops :
    (EnableProcess freshPM "island").1 = "Successfully started the map island" ∧
    (EnableProcess freshPM "island").2.myMapSarted = [] ∧
    (EnableProcess (EnableProcess freshPM "island").2 "island").1 =
      "Successfully started the map island" ∧
    (EnableProcess (EnableProcess freshPM "island").2 "island").2.monitorLoops =
      ["island", "island"] :=
  ⟨rfl, rfl, rfl, rfl⟩

/-- Claim C9: EnableProcess and DisableProcess release the manager mutex on
every control path (the deferred unlock), and in particular the
already-running early return of EnableProcess leaves the mutex free, so a
subsequent DisableProcess on any instance can take it and itself returns
with the mutex free. -/
theorem ProcessManager_ops_release_mutex (pm : PMState) (mapName otherName : String) :
    (EnableProcess pm mapName).2.muLocked = false ∧
    (DisableProcess pm mapName).2.muLocked = false ∧
    ((lookupA pm.configs mapName).isSome = true →
      lookupD pm.myMapSarted mapName = true →
      (EnableProcess pm mapName).1 = "Map already running" ∧
      (DisableProcess (EnableProcess pm mapName).2 otherName).2.muLocked = false) := by
  have hdis : ∀ q : PMState, (DisableProcess q otherName).2.muLocked = false := by
    intro q
    simp [DisableProcess, Rcon.dummyRcon, lockMu, unlockMu]
  have hen : (EnableProcess pm mapName).2.muLocked = false := by
    cases hc : lookupA pm.configs mapName with
    | none => simp [EnableProcess, hc, lockMu, unlockMu]
    | some c =>
        simp only [EnableProcess, hc, lockMu, unlockMu]
        split <;> rfl
  refine ⟨hen, ?_, ?_⟩
  · simp [DisableProcess, Rcon.dummyRcon, lockMu, unlockMu]
  · intro hcfg hstarted
    obtain ⟨c, hc⟩ := Option.isSome_iff_exists.mp hcfg
    rw [lookupD] at hstarted
    constructor
    · simp [EnableProcess, hc, hstarted, lookupD, lockMu, unlockMu]
    · exact hdis _

/-- Witness for C9 at a state where the island map is recorded as started:
the early return leaves the mutex free and a following Disable succeeds in
taking and releasing it. -/
theorem ProcessManager_ops_release_mutex_witness :
    (EnableProcess pidMarkerDemo "island").2.muLocked = false ∧
    (EnableProcess pidMarkerDemo "island").1 = "Map already running" ∧
    (DisableProcess (EnableProcess pidMarkerDemo "island").2 "center").2.muLocked = false := by
  have h := ProcessManager_ops_release_mutex pidMarkerDemo "island" "center"
  have h3 := h.2.2 (by decide) (by decide)
  exact ⟨h.1, h3.1, h3.2⟩

end PM

namespace Backup

/-- One map's backup configuration (backup.MapConfig).  Explicit file names
are kept as component paths below the source directory, the shape
filepath.Join gives them. -/
structure MapConfig where
  zipDir : String
  extractDir : String
  fileExtensions : List String
  specificFiles : List (List String)
  intervalMinutes : Int
  retentionDays : Int
deriving Repr, DecidableEq

/-- The suffix beginning at the final dot of a character list; empty when
there is no dot. -/
def extChars : List Char → List Char
  | [] => []
  | c :: rest =>
      let tail := extChars rest
      if tail.isEmpty then (if c = '.' then c :: rest else []) else tail

/-- filepath.Ext on a file name: the suffix beginning at the final dot,
empty when the name has no dot. -/
def fileExt (name : String) : String := String.mk (extChars name.data)

/-- A file of the source tree: its component path relative to the source
directory and its content. -/
structure FSFile where
  relPath : List String
  content : String
deriving Repr, DecidableEq

/-- The file's own name — the last path component (what info.Name() yields
during the walk). -/
def fileName (f : FSFile) : String := f.relPath.getLast?.getD ""

/-- filepath.Base on a component path: the last component. -/
def baseName (p : List String) : String := p.getLast?.getD "."

/-- The slash-joined rendering of a component path — the path relative to
the source root. -/
def relPathString (p : List String) : String := String.intercalate "/" p

/-- addFileToZip: appends one entry to the archive, named by
filepath.Base of the source path — not by the relative path. -/
def addFileToZip (zipEntries : List (String × String)) (f : FSFile) :
    List (String × String) :=
  zipEntries ++ [(baseName f.relPath, f.content)]

/-- The walk guard of the extension pass: not a directory (our tree holds
only files) and filepath.Ext of the name equal to the configured
extension. -/
def matchesExt (ext : String) (f : FSFile) : Bool := fileExt (fileName f) == ext

/-- The archive entries IncrementalBackup produces on a cycle where every
file operation succeeds: one full walk per configured extension adding every
matching file, then every configured specific file that exists, each added
through addFileToZip. -/
def IncrementalBackupEntries (config : MapConfig) (fs : List FSFile) :
    List (String × String) :=
  let afterExtensions := config.fileExtensions.foldl
    (fun acc ext => (fs.filter (matchesExt ext)).foldl addFileToZip acc) []
  config.specificFiles.foldl
    (fun acc p =>
      match fs.find? (fun f => f.relPath == p) with
      | some f => addFileToZip acc f
      | none => acc) afterExtensions

/-- The spec's selection, written from its words for comparison: every file
whose extension is in the configured extension set, plus every explicitly
configured file name that exists. -/
def specSelectedFiles (config : MapConfig) (fs : List FSFile) : List FSFile :=
  (config.fileExtensions.flatMap fun ext => fs.filter (matchesExt ext))
  ++ config.specificFiles.filterMap (fun p => fs.find? (fun f => f.relPath == p))

/-- The archive entry one file contributes: its base name and its content. -/
def zipEntryOf (f : FSFile) : String × String := (baseName f.relPath, f.content)

theorem foldl_addFileToZip (l : List FSFile) (acc : List (String × String)) :
    l.foldl addFileToZip acc = acc ++ l.map zipEntryOf := by
  induction l generalizing acc with
  | nil => simp
  | cons f rest ih => simp [List.foldl_cons, addFileToZip, ih, zipEntryOf]

/-- The single-file source tree with the log file inside a subdirectory. -/
def nestedDemoFS : List FSFile := [{ relPath := ["sub", "a.log"], content := "alpha" }]

/-- A concrete backup configuration selecting log files. -/
def demoMapConfig : MapConfig :=
  { zipDir := "./zips", extractDir := "./island_saves",
    fileExtensions := [".log"], specificFiles := [],
    intervalMinutes := 30, retentionDays := 7 }

/-- Claim C4 counterexample: a selected file sitting in a subdirectory is
stored in the archive under its bare base name, not under its path relative
to the source root — addFileToZip names entries with filepath.Base. -/
theorem IncrementalBackup_flattens_relative_paths_cex :
    IncrementalBackupEntries demoMapConfig nestedDemoFS = [("a.log", "alpha")] ∧
    relPathString ["sub", "a.log"] = "sub/a.log" ∧
    ("sub/a.log", "alpha") ∉ IncrementalBackupEntries demoMapConfig nestedDemoFS := by
  refine ⟨rfl, rfl, ?_⟩
  decide

/-- Claim C4 amended: the archive of a fully successful cycle contains
exactly the selected files — the extension-matched files of each configured
extension in walk order, then every configured specific file that exists —
but each entry is stored under the file's base name, so files from
subdirectories lose their directory prefix. -/
theorem IncrementalBackup_archives_selection_under_basenames (config : MapConfig)
    (fs : List FSFile) :
    IncrementalBackupEntries config fs = (specSelectedFiles config fs).map zipEntryOf := by
  have hext : ∀ (exts : List String) (acc : List (String × String)),
      exts.foldl (fun acc ext => (fs.filter (matchesExt ext)).foldl addFileToZip acc) acc
        = acc ++ (exts.flatMap fun ext => fs.filter (matchesExt ext)).map zipEntryOf := by
    intro exts
    induction exts with
    | nil => intro acc; simp
    | cons e rest ih =>
        intro acc
        rw [List.foldl_cons, ih, foldl_addFileToZip]
        simp [List.append_assoc]
  have hspec : ∀ (ps : List (List String)) (acc : List (String × String)),
      ps.foldl (fun acc p =>
          match fs.find? (fun f => f.relPath == p) with
          | some f => addFileToZip acc f
          | none => acc) acc
        = acc ++ (ps.filterMap (fun p => fs.find? (fun f => f.relPath == p))).map zipEntryOf := by
    intro ps
    induction ps with
    | nil => intro acc; simp
    | cons p rest ih =>
        intro acc
        rw [List.foldl_cons]
        cases hf : fs.find? (fun f => f.relPath == p) with
        | none =>
            simp only [hf]
            rw [ih]
            simp [hf]
        | some f =>
            simp only [hf]
            rw [ih]
            simp [hf, addFileToZip, zipEntryOf, List.append_assoc]
  simp [IncrementalBackupEntries, hext, hspec, specSelectedFiles]

/-- One archive of the target directory: its file name and modification
time, the latter in nanoseconds as Go durations are. -/
structure ArchiveFile where
  name : String
  modTime : Int
deriving Repr, DecidableEq

/-- time.Hour in nanoseconds. -/
def nsPerHour : Int := 3600 * 1000000000

/-- The retention window: retention-days times 24 hours. -/
def retentionDuration (retentionDays : Int) : Int := retentionDays * 24 * nsPerHour

/-- The deletion guard of the retention walk: a non-directory whose name has
the zip extension and whose modification time plus the retention window lies
strictly before now. -/
def shouldRemoveArchive (config : MapConfig) (now : Int) (f : ArchiveFile) : Bool :=
  fileExt f.name == ".zip" &&
    decide (f.modTime + retentionDuration config.retentionDays < now)

/-- RemoveOldBackups over the target directory listing: walks the archives
in order, removing each one the guard selects; the first removal that fails
makes the walk callback return the error, which aborts the walk — the
archives after it are not examined.  Returns the names actually removed and
the error if any. -/
def RemoveOldBackups (config : MapConfig) (now : Int) (removeOk : String → Bool) :
    List ArchiveFile → List String × Option String
  | [] => ([], none)
  | f :: rest =>
      if shouldRemoveArchive config now f then
        if removeOk f.name then
          let r := RemoveOldBackups config now removeOk rest
          (f.name :: r.1, r.2)
        else ([], some ("failed to remove old backup: " ++ f.name))
      else RemoveOldBackups config now removeOk rest

theorem RemoveOldBackups_all_ok (config : MapConfig) (now : Int)
    (files : List ArchiveFile) :
    RemoveOldBackups config now (fun _ => true) files =
      ((files.filter (shouldRemoveArchive config now)).map ArchiveFile.name, none) := by
  induction files with
  | nil => rfl
  | cons f rest ih =>
      by_cases hf : shouldRemoveArchive config now f <;>
        simp [RemoveOldBackups, hf, ih]

/-- Claim C6: when removals succeed, the retention sweep deletes a zip
archive exactly when now minus its modification time is strictly greater
than retention-days times 24 hours, and an archive whose age is exactly at
the boundary is retained (its deletion guard is false). -/
theorem RemoveOldBackups_deletes_iff_strictly_older (config : MapConfig) (now : Int)
    (files : List ArchiveFile) :
    RemoveOldBackups config now (fun _ => true) files =
      ((files.filter fun f =>
          fileExt f.name == ".zip" &&
            decide (now - f.modTime > config.retentionDays * 24 * nsPerHour)).map
        ArchiveFile.name, none) ∧
    ∀ f : ArchiveFile, now - f.modTime = config.retentionDays * 24 * nsPerHour →
      shouldRemoveArchive config now f = false := by
  constructor
  · rw [RemoveOldBackups_all_ok]
    have hpred : files.filter (shouldRemoveArchive config now) =
        files.filter fun f =>
          fileExt f.name == ".zip" &&
            decide (now - f.modTime > config.retentionDays * 24 * nsPerHour) := by
      refine List.filter_congr ?_
      intro f hf
      have harith : (f.modTime + retentionDuration config.retentionDays < now) ↔
          (now - f.modTime > config.retentionDays * 24 * nsPerHour) := by
        rw [retentionDuration]
        omega
      simp [shouldRemoveArchive, harith]
    rw [hpred]
  · intro f hb
    have hnot : ¬ (f.modTime + retentionDuration config.retentionDays < now) := by
      rw [retentionDuration]
      omega
    simp [shouldRemoveArchive, hnot]

/-- Witness for C6: with a seven-day retention window, an archive whose age
is exactly seven days is retained, while the sweep over it deletes
nothing. -/
theorem RemoveOldBackups_boundary_witness :
    shouldRemoveArchive demoMapConfig (7 * 24 * nsPerHour)
      { name := "island_x.zip", modTime := 0 } = false :=
  (RemoveOldBackups_deletes_iff_strictly_older demoMapConfig (7 * 24 * nsPerHour)
    [{ name := "island_x.zip", modTime := 0 }]).2
    { name := "island_x.zip", modTime := 0 } (by decide)

/-- The target directory with two expired archives. -/
def sweepDemo : List ArchiveFile :=
  [{ name := "island_a.zip", modTime := 0 }, { name := "island_b.zip", modTime := 0 }]

/-- Eight days after the archives were written. -/
def sweepNow : Int := 8 * 24 * nsPerHour

/-- Claim C5 counterexample: with both archives past the seven-day window
and the first deletion failing, the sweep removes nothing — the second
expired archive, although its deletion guard holds, is never processed —
and the error aborts the sweep (IncrementalBackup propagates it as the
cycle's result). -/
theorem RemoveOldBackups_abort_cex :
    shouldRemoveArchive demoMapConfig sweepNow { name := "island_b.zip", modTime := 0 } = true ∧
    RemoveOldBackups demoMapConfig sweepNow (fun n => n != "island_a.zip") sweepDemo =
      ([], some "failed to remove old backup: island_a.zip") := by
  exact ⟨by decide, by decide⟩

/-- Claim C5 amended: a failed deletion aborts the remainder of the sweep:
when every expired archive before f deletes successfully and deleting f
fails, the sweep removes exactly the expired archives preceding f and
returns the error for f — the archives after f are not processed, and the
error is the sweep's (and hence the cycle's) result. -/
theorem RemoveOldBackups_failure_aborts_sweep (config : MapConfig) (now : Int)
    (removeOk : String → Bool) (xs ys : List ArchiveFile) (f : ArchiveFile)
    (hexp : shouldRemoveArchive config now f = true)
    (hfail : removeOk f.name = false)
    (hok : ∀ g ∈ xs, shouldRemoveArchive config now g = true → removeOk g.name = true) :
    RemoveOldBackups config now removeOk (xs ++ f :: ys) =
      ((xs.filter (shouldRemoveArchive config now)).map ArchiveFile.name,
        some ("failed to remove old backup: " ++ f.name)) := by
  induction xs with
  | nil => simp [RemoveOldBackups, hexp, hfail]
  | cons g rest ih =>
      have hrest : ∀ a ∈ rest, shouldRemoveArchive config now a = true →
          removeOk a.name = true := by
        intro a ha hsa
        exact hok a (by simp [ha]) hsa
      by_cases hg : shouldRemoveArchive config now g
      · have hgok := hok g (by simp) hg
        simp [RemoveOldBackups, hg, hgok, ih hrest]
      · simp [RemoveOldBackups, hg, ih hrest]

/-- Witness for the amended C5 theorem on a concrete directory: the expired
archive before the failing one is removed, the failing one aborts the
sweep with its error, and the expired archive after it is untouched. -/
theorem RemoveOldBackups_failure_aborts_sweep_witness :
    RemoveOldBackups demoMapConfig sweepNow (fun n => n != "island_a.zip")
      ([{ name := "island_0.zip", modTime := 0 }] ++
        { name := "island_a.zip", modTime := 0 } :: [{ name := "island_b.zip", modTime := 0 }]) =
      (["island_0.zip"], some "failed to remove old backup: island_a.zip") := by
  have h := RemoveOldBackups_failure_aborts_sweep demoMapConfig sweepNow
    (fun n => n != "island_a.zip")
    [{ name := "island_0.zip", modTime := 0 }]
    [{ name := "island_b.zip", modTime := 0 }]
    { name := "island_a.zip", modTime := 0 }
    (by decide) (by decide) (by decide)
  simpa using h

/-- The backup-manager state: the immutable config, the schedulers map
(name to the ticker most recently installed for it), the multiset of live
backup-loop goroutines each tied to the ticker it ranges over, the
persisted per-map schedule-flag files, and a counter supplying fresh ticker
identities. -/
structure BMState where
  configs : List (String × MapConfig)
  schedulers : List (String × Nat)
  backupLoops : List (String × Nat)
  saveFlags : List (String × String)
  nextTicker : Nat
deriving Repr, DecidableEq

/-- How many live backup loops the map currently has. -/
def loopCount (s : BMState) (mapName : String) : Nat :=
  (s.backupLoops.filter (fun p => p.1 == mapName)).length

/-- startNewBackup: creates a fresh ticker, stores it in the schedulers map
(silently replacing any previous entry), and spawns a new loop goroutine
ranging over it.  No check against an existing loop. -/
def startNewBackup (s : BMState) (mapName : String) : BMState :=
  { s with schedulers := setA s.schedulers mapName s.nextTicker,
           backupLoops := (mapName, s.nextTicker) :: s.backupLoops,
           nextTicker := s.nextTicker + 1 }

/-- StartBackupSchedule: under the mutex, requires a configuration for the
map, persists the schedule flag as true (the write modelled as
succeeding), and unconditionally calls startNewBackup — there is no
already-scheduled check. -/
def StartBackupSchedule (s : BMState) (mapName : String) : Except String BMState :=
  match lookupA s.configs mapName with
  | none => .error ("no configuration found for map: " ++ mapName)
  | some _ =>
      .ok (startNewBackup { s with saveFlags := setA s.saveFlags mapName "true" } mapName)

/-- StopBackupSchedule: errors when no scheduler entry is recorded;
otherwise stops the recorded ticker (which ends only the loop ranging over
that ticker), deletes the entry, and persists the flag as false. -/
def StopBackupSchedule (s : BMState) (mapName : String) : Except String BMState :=
  match lookupA s.schedulers mapName with
  | none => .error ("no running backup schedule for map: " ++ mapName)
  | some t =>
      .ok { s with backupLoops := s.backupLoops.erase (mapName, t),
                   schedulers := removeA s.schedulers mapName,
                   saveFlags := setA s.saveFlags mapName "false" }

/-- The iteration of StartOrResumeBackups over the configured maps: for
each map whose schedule-flag file exists, read it, and when it reads true
call StartBackupSchedule, any error aborting the remaining maps. -/
def goResume : List (String × MapConfig) → BMState → Except String BMState
  | [], s => .ok s
  | (mapName, _) :: rest, s =>
      match lookupA s.saveFlags mapName with
      | some content =>
          if content == "true" then
            match StartBackupSchedule s mapName with
            | .ok s2 => goResume rest s2
            | .error e =>
                .error ("failed to resume backup schedule for " ++ mapName ++ ": " ++ e)
          else goResume rest s
      | none => goResume rest s

/-- StartOrResumeBackups: iterate the configured maps, starting a schedule
for each whose persisted flag reads true. -/
def StartOrResumeBackups (s : BMState) : Except String BMState :=
  goResume s.configs s

/-- A fresh backup manager configured for the island map only: no
schedulers, no loops, no flag files. -/
def freshBM : BMState :=
  { configs := [("island", demoMapConfig)], schedulers := [], backupLoops := [],
    saveFlags := [], nextTicker := 0 }

/-- Claim C3 evaluated at the failing input: two StartBackupSchedule calls
for the same map both succeed and leave two live backup loops — the second
call installs a fresh ticker over the old schedulers entry without stopping
the first loop — and the following StopBackupSchedule stops only the newer
loop, leaving the orphaned first one running. -/
theorem StartBackupSchedule_double_call_leaves_two_loops :
    ((StartBackupSchedule freshBM "island").bind
        (fun s => StartBackupSchedule s "island")).map
        (fun s => loopCount s "island") = .ok 2 ∧
    ((StartBackupSchedule freshBM "island").bind
        (fun s => StartBackupSchedule s "island")).bind
        (fun s => (StopBackupSchedule s "island").map
          (fun s2 => loopCount s2 "island")) = .ok 1 :=
  ⟨rfl, rfl⟩

theorem loopCount_startNewBackup (s : BMState) (mapName name : String) :
    loopCount (startNewBackup s mapName) name =
      loopCount s name + (if mapName = name then 1 else 0) := by
  by_cases h : mapName = name <;>
    simp [loopCount, startNewBackup, List.filter_cons, h]

theorem goResume_loopCount (cs : List (String × MapConfig)) (s : BMState) (name : String)
    (hc : ∀ p ∈ cs, (lookupA s.configs p.1).isSome = true) :
    (goResume cs s).map (fun s2 => loopCount s2 name) =
      .ok (loopCount s name +
        cs.countP (fun p => p.1 == name && (lookupA s.saveFlags p.1 == some "true"))) := by
  induction cs generalizing s with
  | nil => simp [goResume, Except.map]
  | cons q rest ih =>
      obtain ⟨mapName, cfg⟩ := q
      have hhead := hc (mapName, cfg) (by simp)
      obtain ⟨c, hcfg⟩ := Option.isSome_iff_exists.mp hhead
      have hcrest : ∀ p ∈ rest, (lookupA s.configs p.1).isSome = true := by
        intro p hp
        exact hc p (by simp [hp])
      rw [List.countP_cons]
      cases hflag : lookupA s.saveFlags mapName with
      | none =>
          have harm : goResume ((mapName, cfg) :: rest) s = goResume rest s := by
            simp [goResume, hflag]
          rw [harm, ih s hcrest]
          simp
      | some content =>
          by_cases htrue : content = "true"
          · subst htrue
            have hstart : StartBackupSchedule s mapName =
                .ok (startNewBackup
                  { s with saveFlags := setA s.saveFlags mapName "true" } mapName) := by
              simp [StartBackupSchedule, hcfg]
            have hflags2 : ∀ j, lookupA (setA s.saveFlags mapName "true") j =
                lookupA s.saveFlags j :=
              lookupA_setA_self s.saveFlags mapName "true" hflag
            have harm : goResume ((mapName, cfg) :: rest) s =
                goResume rest (startNewBackup
                  { s with saveFlags := setA s.saveFlags mapName "true" } mapName) := by
              simp [goResume, hflag, hstart]
            have hcrest2 : ∀ p ∈ rest,
                (lookupA (startNewBackup
                  { s with saveFlags := setA s.saveFlags mapName "true" } mapName).configs
                  p.1).isSome = true := by
              intro p hp
              exact hc p (by simp [hp])
            rw [harm, ih _ hcrest2]
            have hcount : rest.countP (fun p => p.1 == name &&
                  (lookupA (startNewBackup
                    { s with saveFlags := setA s.saveFlags mapName "true" } mapName).saveFlags
                    p.1 == some "true")) =
                rest.countP (fun p => p.1 == name &&
                  (lookupA s.saveFlags p.1 == some "true")) := by
              refine List.countP_congr ?_
              intro p hp
              rw [show (startNewBackup
                { s with saveFlags := setA s.saveFlags mapName "true" } mapName).saveFlags =
                  setA s.saveFlags mapName "true" from rfl, hflags2 p.1]
            rw [hcount, loopCount_startNewBackup]
            have hlc : loopCount
                { s with saveFlags := setA s.saveFlags mapName "true" } name =
                loopCount s name := rfl
            rw [hlc]
            by_cases hname : mapName = name
            · subst hname
              simp
              omega
            · have hb : (mapName == name) = false := beq_eq_false_iff_ne.mpr hname
              simp [hb, hname]
          · have hfalse : (content == "true") = false := by
              simp [htrue]
            have harm : goResume ((mapName, cfg) :: rest) s = goResume rest s := by
              simp [goResume, hflag, hfalse]
            rw [harm, ih s hcrest]
            have hx : (((mapName, cfg).1 == name) &&
                (some content == some ("true" : String))) = false := by
              have hy : (some content == some ("true" : String)) = false := by
                rw [beq_eq_false_iff_ne]
                intro hcon
                exact htrue (by injection hcon)
              simp [hy]
            rw [hx]
            simp

theorem lookupA_isSome_of_mem {α : Type} (l : List (String × α)) (p : String × α)
    (hp : p ∈ l) : (lookupA l p.1).isSome = true := by
  induction l with
  | nil => cases hp
  | cons q rest ih =>
      by_cases h : q.1 = p.1
      · simp [lookupA, h]
      · rcases List.mem_cons.mp hp with hq | hq
        · exact absurd (hq ▸ rfl) h
        · simp [lookupA, h, ih hq]

theorem countP_key_flag_of_nodup (cs : List (String × MapConfig))
    (flags : List (String × String)) (name : String)
    (hnd : (cs.map Prod.fst).Nodup) :
    cs.countP (fun p => p.1 == name && (lookupA flags p.1 == some "true")) =
      if name ∈ cs.map Prod.fst ∧ lookupA flags name = some "true" then 1 else 0 := by
  induction cs with
  | nil => simp
  | cons q rest ih =>
      obtain ⟨k, c⟩ := q
      have hnd2 : (rest.map Prod.fst).Nodup := (List.nodup_cons.mp hnd).2
      have hknotin : k ∉ rest.map Prod.fst := (List.nodup_cons.mp hnd).1
      rw [List.countP_cons, ih hnd2]
      by_cases hk : k = name
      · subst hk
        have hzero : ¬ (k ∈ rest.map Prod.fst ∧ lookupA flags k = some "true") := by
          intro hcontra
          exact hknotin hcontra.1
        rw [if_neg hzero]
        by_cases hfl : lookupA flags k = some "true"
        · have hb : (lookupA flags k == some "true") = true := by
            rw [beq_iff_eq]
            exact hfl
          simp [hb, hfl]
        · have hb : (lookupA flags k == some "true") = false := beq_eq_false_iff_ne.mpr hfl
          simp [hb, hfl]
      · have hb : ((k , c).1 == name) = false := beq_eq_false_iff_ne.mpr hk
        have hiff2 : (name ∈ k :: rest.map Prod.fst) ↔ (name ∈ rest.map Prod.fst) := by
          rw [List.mem_cons]
          constructor
          · intro h1
            rcases h1 with h1 | h1
            · exact absurd h1.symm hk
            · exact h1
          · intro h1
            exact Or.inr h1
        simp only [hb, Bool.false_and, Bool.false_eq_true, if_false, Nat.add_zero]
        exact (if_congr (and_congr_left' hiff2) rfl rfl).symm

/-- Claim C7: on a fresh manager (empty loop and scheduler maps),
StartOrResumeBackups succeeds and leaves exactly one live backup loop for
every configured map whose persisted schedule flag reads true, and none for
a configured map whose flag reads false or is absent (or for an
unconfigured name). -/
theorem StartOrResumeBackups_starts_exactly_flagged (cfgs : List (String × MapConfig))
    (flags : List (String × String)) (startTicker : Nat) (mapName : String)
    (hnd : (cfgs.map Prod.fst).Nodup) :
    (StartOrResumeBackups
        { configs := cfgs, schedulers := [], backupLoops := [],
          saveFlags := flags, nextTicker := startTicker }).map
        (fun s2 => loopCount s2 mapName) =
      .ok (if mapName ∈ cfgs.map Prod.fst ∧ lookupA flags mapName = some "true"
        then 1 else 0) := by
  rw [StartOrResumeBackups]
  rw [goResume_loopCount cfgs _ mapName (fun p hp => lookupA_isSome_of_mem cfgs p hp)]
  rw [show loopCount
      { configs := cfgs, schedulers := [], backupLoops := [],
        saveFlags := flags, nextTicker := startTicker } mapName = 0 from rfl]
  rw [countP_key_flag_of_nodup cfgs flags mapName hnd]
  simp

/-- The two-map resume scenario: island flagged true, center flagged
false. -/
def resumeCfgs : List (String × MapConfig) :=
  [("island", demoMapConfig), ("center", demoMapConfig)]

/-- The persisted schedule flags of the resume scenario. -/
def resumeFlags : List (String × String) := [("island", "true"), ("center", "false")]

/-- The fresh manager of the resume scenario. -/
def resumeDemoState : BMState :=
  { configs := resumeCfgs, schedulers := [], backupLoops := [],
    saveFlags := resumeFlags, nextTicker := 0 }

/-- Witness for C7: resuming the two-map scenario starts exactly one loop
for the true-flagged island, none for the false-flagged center, and none
for an unconfigured name. -/
theorem StartOrResumeBackups_starts_exactly_flagged_witness :
    (StartOrResumeBackups resumeDemoState).map (fun s2 => loopCount s2 "island") = .ok 1 ∧
    (StartOrResumeBackups resumeDemoState).map (fun s2 => loopCount s2 "center") = .ok 0 ∧
    (StartOrResumeBackups resumeDemoState).map (fun s2 => loopCount s2 "ragnarok") = .ok 0 := by
  refine ⟨?_, ?_, ?_⟩
  · have h := StartOrResumeBackups_starts_exactly_flagged resumeCfgs resumeFlags 0
      "island" (by decide)
    have he : (if "island" ∈ resumeCfgs.map Prod.fst ∧
        lookupA resumeFlags "island" = some "true" then 1 else 0) = 1 := by decide
    rw [he] at h
    exact h
  · have h := StartOrResumeBackups_starts_exactly_flagged resumeCfgs resumeFlags 0
      "center" (by decide)
    have he : (if "center" ∈ resumeCfgs.map Prod.fst ∧
        lookupA resumeFlags "center" = some "true" then 1 else 0) = 0 := by decide
    rw [he] at h
    exact h
  · have h := StartOrResumeBackups_starts_exactly_flagged resumeCfgs resumeFlags 0
      "ragnarok" (by decide)
    have he : (if "ragnarok" ∈ resumeCfgs.map Prod.fst ∧
        lookupA resumeFlags "ragnarok" = some "true" then 1 else 0) = 0 := by decide
    rw [he] at h
    exact h

end Backup
